import Mathlib

/-
Verification of mcp-blockchain-metadata.

Shallow embedding of the stateful core of the service:
  * the token-list service (src/services/tokens.ts): chain-id
    normalization, token validation/normalization, the per-protocol
    token cache and the fetch pipeline;
  * the repository cache (src/services/repository.ts): single-slot
    5-minute TTL cache around the repository fetch;
  * the session manager (src/utils/session.manager.ts): session map with
    per-session inactivity timers and sliding expiry.

JS plain objects used as string-keyed maps are modelled as association
lists; `Date.now()` and timer deadlines are explicit natural numbers
(milliseconds); outbound fetches are modelled by passing the outcome of
the fetch as an explicit parameter; thrown `Error(msg)` is modelled as
`Except String`.
-/

/-- Lookup in an association list, modelling JS property read `obj[k]`
(`none` models `undefined`). -/
def alookup {α : Type} (l : List (String × α)) (k : String) : Option α :=
  match l with
  | [] => none
  | (k1, v) :: rest => if k1 = k then some v else alookup rest k

/-- Property write `obj[k] = v`: overwrite in place if the key is present,
append otherwise. -/
def aSet {α : Type} (k : String) (v : α) : List (String × α) → List (String × α)
  | [] => [(k, v)]
  | (k1, v1) :: rest => if k1 = k then (k, v) :: rest else (k1, v1) :: aSet k v rest

/-- Property deletion `delete obj[k]`. -/
def aDel {α : Type} (k : String) (l : List (String × α)) : List (String × α) :=
  l.filter (fun p => p.1 ≠ k)

/-- ASCII lowercasing, modelling JS `String.prototype.toLowerCase` (all the
keys, aliases and addresses handled by this service are ASCII). -/
def lowerString (s : String) : String :=
  ⟨s.data.map Char.toLower⟩

/- ===================== Token-list service (src/services/tokens.ts) ==== -/

/-- Static alias table `CHAIN_ID_MAPPING` from src/services/tokens.ts. -/
def CHAIN_ID_MAPPING : List (String × String) :=
  [("avalanche", "43114"),
   ("avax", "43114"),
   ("avalanche-c", "43114"),
   ("fuji", "43113"),
   ("fuji-c", "43113"),
   ("avalanche-fuji", "43113"),
   ("avalanche-testnet", "43113")]

/-- Token-list cache TTL: 30 minutes in milliseconds. -/
def CACHE_EXPIRATION_MS : Nat := 30 * 60 * 1000

/-- Protocol to token-list URL table from src/constants/url.ts. -/
def PROTOCOL_TOKENLIST_URLS : List (String × String) :=
  [("lfj", "https://raw.githubusercontent.com/traderjoe-xyz/joe-tokenlists-v2/main/verified_tokenlist.json"),
   ("traderjoe", "https://raw.githubusercontent.com/traderjoe-xyz/joe-tokenlists-v2/main/verified_tokenlist.json")]

/-- JS regex test `/^\d+$/.test(s)`: non-empty and every character an ASCII
digit. -/
def isNumericString (s : String) : Bool :=
  !s.data.isEmpty && s.data.all Char.isDigit

/-- Function `normalizeChainId` of src/services/tokens.ts: numeric strings
pass through; otherwise the lowercased input is looked up in
`CHAIN_ID_MAPPING`; a falsy lookup result (absent key, or an empty-string
value, which the table never contains) throws `Cadena desconocida`. -/
def normalizeChainId (chainId : String) : Except String String :=
  if isNumericString chainId then
    Except.ok chainId
  else
    match alookup CHAIN_ID_MAPPING (lowerString chainId) with
    | some v =>
      if v = "" then Except.error ("Cadena desconocida: " ++ chainId)
      else Except.ok v
    | none => Except.error ("Cadena desconocida: " ++ chainId)

/-- Function `getCacheKey` of src/services/tokens.ts. `none` and the falsy
empty string both yield the bare protocol key. -/
def getCacheKey (protocolName : String) (targetChainId : Option String) : String :=
  let lowerCaseProtocol := lowerString protocolName
  match targetChainId with
  | some cid => if cid = "" then lowerCaseProtocol else lowerCaseProtocol ++ "-" ++ cid
  | none => lowerCaseProtocol

/-- A fetched token entry, a loosely-typed JS object. `none` models a
missing field (for `decimals`/`chainId`: a missing or non-number field; for
`tags`: a missing or non-array field). JS truthiness makes `some ""` act
like a missing string field. -/
structure RawToken where
  address : Option String
  symbol : Option String
  name : Option String
  decimals : Option Int
  chainId : Option Int
  logoURI : Option String
  tags : Option (List String)
deriving DecidableEq, Repr

/-- Canonical `TokenInfo` record (src/types/tokens.d.ts) as produced by
`validateAndNormalizeToken` (all optional fields filled in). -/
structure TokenInfo where
  name : String
  symbol : String
  address : String
  decimals : Int
  chainId : String
  logoURI : String
  tags : List String
  isNative : Bool
deriving DecidableEq, Repr

/-- Zero address literal used for native-token detection. -/
def zeroAddress : String := "0x0000000000000000000000000000000000000000"

/-- Function `validateAndNormalizeToken` of src/services/tokens.ts: an entry
with a missing/falsy `address`, `symbol` or `name`, or a non-number
`decimals` or `chainId`, yields `null`; otherwise the canonical record is
built (`chainId` stringified, `logoURI` defaulted to `""`, `tags` defaulted
to `[]`, `isNative` from the lowercased address). -/
def validateAndNormalizeToken (token : RawToken) : Option TokenInfo :=
  match token.address, token.symbol, token.name, token.decimals, token.chainId with
  | some address, some symbol, some nam, some decimals, some chainId =>
    if address = "" || symbol = "" || nam = "" then
      none
    else
      some { name := nam
             symbol := symbol
             address := address
             decimals := decimals
             chainId := toString chainId
             logoURI := token.logoURI.getD ""
             tags := token.tags.getD []
             isNative := decide (lowerString address = zeroAddress) }
  | _, _, _, _, _ => none

/-- Spec-side predicate, written from the claim: the entry has `address`,
`symbol` and `name` (present, non-empty) and numeric `decimals` and
`chainId`. -/
def hasRequiredFields (t : RawToken) : Bool :=
  (match t.address with | some a => decide (a ≠ "") | none => false)
    && (match t.symbol with | some s => decide (s ≠ "") | none => false)
    && (match t.name with | some n => decide (n ≠ "") | none => false)
    && t.decimals.isSome
    && t.chainId.isSome

/-- Parsed JSON body of a token-list response, after
`data.tokens || data` and the `Array.isArray` check: the document is
itself an array, or an object carrying a `tokens` array, or anything else
(yielding no usable array). -/
inductive TokenListBody where
  | arr (tokens : List RawToken)
  | objTokensArr (tokens : List RawToken)
  | objOther
deriving DecidableEq, Repr

/-- The array `allTokens` extracted from the body by
`data.tokens || data` plus `Array.isArray`. -/
def bodyTokens : TokenListBody → List RawToken
  | TokenListBody.arr ts => ts
  | TokenListBody.objTokensArr ts => ts
  | TokenListBody.objOther => []

/-- Outcome of the outbound token-list fetch as observed inside the `try`
block: success with a parsed JSON body; a non-2xx response (status and
statusText); an abort fired by the 10-second timeout (a DOMException named
AbortError); or any other rejection (network or JSON parse failure)
carrying its message. -/
inductive FetchOutcome where
  | success (body : TokenListBody)
  | httpError (status : Nat) (statusText : String)
  | abortTimeout
  | otherFailure (message : String)
deriving DecidableEq, Repr

/-- One slot of `protocolTokenCache`. -/
structure CacheEntry where
  tokens : List TokenInfo
  timestamp : Nat
deriving DecidableEq, Repr

/-- The module-level `protocolTokenCache` object. -/
abbrev ProtocolTokenCache := List (String × CacheEntry)

instance exceptDecEq {ε α : Type} [DecidableEq ε] [DecidableEq α] :
    DecidableEq (Except ε α) := fun a b =>
  match a, b with
  | Except.ok x, Except.ok y =>
    if h : x = y then isTrue (by rw [h]) else isFalse (by intro hc; cases hc; exact h rfl)
  | Except.error x, Except.error y =>
    if h : x = y then isTrue (by rw [h]) else isFalse (by intro hc; cases hc; exact h rfl)
  | Except.ok _, Except.error _ => isFalse (by intro hc; cases hc)
  | Except.error _, Except.ok _ => isFalse (by intro hc; cases hc)

/-- Result of one `getTokensByProtocol` call: the returned value or thrown
error message, together with the cache state after the call. -/
structure TokensCallResult where
  result : Except String (List TokenInfo)
  cache : ProtocolTokenCache
deriving DecidableEq, Repr

/-- The wrapped message built by the catch block of `getTokensByProtocol`
for every non-timeout failure. -/
def fetchErrorMessage (protocolName : String) (targetChainId : Option String)
    (msg : String) : String :=
  "Error al obtener tokens para protocolo " ++ protocolName
    ++ (match targetChainId with
        | some t => if t = "" then "" else " (Cadena: " ++ t ++ ")"
        | none => "")
    ++ ": " ++ msg

/-- The distinct message thrown when the abort fired (timeout). -/
def timeoutMessage (protocolName : String) : String :=
  "Timeout al obtener tokens para protocolo " ++ protocolName

/-- The fetch-and-store tail of `getTokensByProtocol` (the code after the
cache check, inlined in the source): resolve the URL, run the fetch, check
the body, validate/normalize, filter by chain, store in the cache. Errors
thrown inside the `try` (HTTP error, invalid/empty format) are wrapped by
the catch block into `fetchErrorMessage`; an AbortError becomes the
distinct timeout message. -/
def fetchAndStore (fetch : FetchOutcome) (cache : ProtocolTokenCache) (now : Nat)
    (protocolName lowerCaseProtocol : String) (targetChainId : Option String)
    (cacheKey : String) : TokensCallResult :=
  match alookup PROTOCOL_TOKENLIST_URLS lowerCaseProtocol with
  | none =>
    ⟨Except.error ("Protocolo no soportado para listas de tokens: " ++ protocolName), cache⟩
  | some url =>
    if url = "" then
      ⟨Except.error ("Protocolo no soportado para listas de tokens: " ++ protocolName), cache⟩
    else
      match fetch with
      | FetchOutcome.abortTimeout =>
        ⟨Except.error (timeoutMessage protocolName), cache⟩
      | FetchOutcome.otherFailure msg =>
        ⟨Except.error (fetchErrorMessage protocolName targetChainId msg), cache⟩
      | FetchOutcome.httpError status statusText =>
        ⟨Except.error (fetchErrorMessage protocolName targetChainId
          ("Error HTTP " ++ toString status ++ ": " ++ statusText)), cache⟩
      | FetchOutcome.success body =>
        let allTokens := bodyTokens body
        if allTokens.isEmpty then
          ⟨Except.error (fetchErrorMessage protocolName targetChainId
            "Formato de lista de tokens inválido o vacío"), cache⟩
        else
          let processedTokens := allTokens.filterMap validateAndNormalizeToken
          let filteredTokens :=
            match targetChainId with
            | some t => processedTokens.filter (fun tok => tok.chainId = t)
            | none => processedTokens
          ⟨Except.ok filteredTokens, aSet cacheKey ⟨filteredTokens, now⟩ cache⟩

/-- Function `getTokensByProtocol` of src/services/tokens.ts, with the
fetch outcome, the cache state and the clock passed explicitly. -/
def getTokensByProtocol (fetch : FetchOutcome) (cache : ProtocolTokenCache)
    (now : Nat) (protocolName : String) (chainId : Option String) : TokensCallResult :=
  if protocolName = "" then
    ⟨Except.error "Nombre de protocolo requerido", cache⟩
  else
    let lowerCaseProtocol := lowerString protocolName
    let targetChainIdE : Except String (Option String) :=
      match chainId with
      | none => Except.ok none
      | some cid =>
        if cid = "" then Except.ok none
        else
          match normalizeChainId cid with
          | Except.ok t => Except.ok (some t)
          | Except.error msg =>
            Except.error ("Error al normalizar chainId \x27" ++ cid
              ++ "\x27 para protocolo " ++ protocolName ++ ": " ++ msg)
    match targetChainIdE with
    | Except.error e => ⟨Except.error e, cache⟩
    | Except.ok targetChainId =>
      let cacheKey := getCacheKey lowerCaseProtocol targetChainId
      match alookup cache cacheKey with
      | some cachedData =>
        if now - cachedData.timestamp < CACHE_EXPIRATION_MS then
          ⟨Except.ok cachedData.tokens, cache⟩
        else
          fetchAndStore fetch cache now protocolName lowerCaseProtocol targetChainId cacheKey
      | none =>
        fetchAndStore fetch cache now protocolName lowerCaseProtocol targetChainId cacheKey

/- ============== Repository cache (src/services/repository.ts) ========= -/

/-- Record `IntegratorDomain` (src/types/repository.d.ts); the `state`
enum is kept as a string. -/
structure IntegratorDomain where
  domain : String
  state : String
  verifiedAt : String
deriving DecidableEq, Repr

/-- Record `MiniAppEndpoint` (src/types/repository.d.ts). -/
structure MiniAppEndpoint where
  host : String
  state : String
  category : String
  subcategory : Option String
  verifiedAt : String
  protocol : String
  endpoint : String
deriving DecidableEq, Repr

/-- Record `Template` (src/types/repository.d.ts). -/
structure Template where
  id : String
  name : String
  protocol : String
  endpoint : String
deriving DecidableEq, Repr

/-- Record `TemplateCategory` (src/types/repository.d.ts). -/
structure TemplateCategory where
  id : String
  name : String
  templates : List Template
deriving DecidableEq, Repr

/-- Record `TemplatesRepository` (src/types/repository.d.ts). -/
structure TemplatesRepository where
  baseUrl : String
  categories : List TemplateCategory
deriving DecidableEq, Repr

/-- Record `MaliciousDomain` (src/types/repository.d.ts). -/
structure MaliciousDomain where
  domain : String
  reportedAt : String
  reportReason : String
  similarTo : Option String
deriving DecidableEq, Repr

/-- Record `Repository` (src/types/repository.d.ts). -/
structure Repository where
  lastUpdated : String
  version : String
  integratorDomains : List IntegratorDomain
  miniAppEndpoints : List MiniAppEndpoint
  templates : List TemplatesRepository
  maliciousDomains : List MaliciousDomain
deriving DecidableEq, Repr

/-- Repository cache TTL: 5 minutes in milliseconds. -/
def CACHE_TTL : Nat := 5 * 60 * 1000

/-- The module-level mutable slot of src/services/repository.ts:
`repositoryCache` and `repositoryCacheExpiry`. -/
structure RepoCacheState where
  repositoryCache : Option Repository
  repositoryCacheExpiry : Nat
deriving DecidableEq, Repr

/-- Outcome of the outbound repository fetch as observed inside the `try`
block: a parsed document, a non-2xx response (statusText), or any other
rejection carrying its message. -/
inductive RepoFetchOutcome where
  | success (data : Repository)
  | httpError (statusText : String)
  | otherFailure (message : String)
deriving DecidableEq, Repr

/-- Result of one `getRepository` call: returned document or thrown error
message, the slot state after the call, and whether an outbound fetch was
issued (the call body issues at most one). -/
structure RepoCallResult where
  result : Except String Repository
  state : RepoCacheState
  didFetch : Bool
deriving DecidableEq, Repr

/-- Function `getRepository` of src/services/repository.ts, with the fetch
outcome and the clock passed explicitly: serve the cached document while
`now < repositoryCacheExpiry`; otherwise fetch, and on success replace the
slot and set the expiry to `now + CACHE_TTL`; every failure inside the
`try` is wrapped by the catch block and the slot is left unchanged. -/
def getRepository (fetch : RepoFetchOutcome) (now : Nat)
    (s : RepoCacheState) : RepoCallResult :=
  match s.repositoryCache with
  | some cached =>
    if now < s.repositoryCacheExpiry then
      ⟨Except.ok cached, s, false⟩
    else
      getRepositoryFetchPath fetch now s
  | none => getRepositoryFetchPath fetch now s
where
  /-- The `try`/`catch` tail of `getRepository`. -/
  getRepositoryFetchPath (fetch : RepoFetchOutcome) (now : Nat)
      (s : RepoCacheState) : RepoCallResult :=
    match fetch with
    | RepoFetchOutcome.success data =>
      ⟨Except.ok data, ⟨some data, now + CACHE_TTL⟩, true⟩
    | RepoFetchOutcome.httpError statusText =>
      ⟨Except.error ("Failed to fetch repository data: "
        ++ ("Failed to fetch repository: " ++ statusText)), s, true⟩
    | RepoFetchOutcome.otherFailure msg =>
      ⟨Except.error ("Failed to fetch repository data: " ++ msg), s, true⟩

/- ============ Session manager (src/utils/session.manager.ts) ========== -/

/-- Opaque stand-in for `StreamableHTTPServerTransport`: the manager only
stores and returns handles, never inspects them. -/
abbrev TransportHandle := Nat

/-- State of a `SessionManager` instance: the `sessions` map, the
`sessionTimeouts` map (each pending timer represented by its absolute fire
deadline in ms), and the configured `sessionTimeout`. -/
structure SMState where
  sessions : List (String × TransportHandle)
  sessionTimeouts : List (String × Nat)
  sessionTimeout : Nat
deriving DecidableEq, Repr

/-- Method `removeTransport`: if the session exists, delete it and, if a
timer entry exists for it, cancel and delete that too; otherwise a no-op. -/
def removeTransport (sessionId : String) (s : SMState) : SMState :=
  if (alookup s.sessions sessionId).isSome then
    { s with
      sessions := aDel sessionId s.sessions
      sessionTimeouts :=
        if (alookup s.sessionTimeouts sessionId).isSome then
          aDel sessionId s.sessionTimeouts
        else
          s.sessionTimeouts }
  else
    s

/-- Private method `refreshSessionTimeout` called at time `t`: cancel the
previous timer, if any, and schedule a new one firing at
`t + sessionTimeout` (the overwrite models cancel-plus-reschedule). -/
def refreshSessionTimeout (t : Nat) (sessionId : String) (s : SMState) : SMState :=
  { s with sessionTimeouts := aSet sessionId (t + s.sessionTimeout) s.sessionTimeouts }

/-- The ids of pending timers due at time `t`. -/
def dueIds (t : Nat) (timeouts : List (String × Nat)) : List String :=
  (timeouts.filter (fun p => p.2 ≤ t)).map Prod.fst

/-- Event-loop behaviour up to time `t`: every pending timer whose deadline
has passed fires, and each firing runs its callback
`removeTransport sessionId`. A firing whose session was already removed is
a no-op (the callback guards on presence). -/
def fireDue (t : Nat) (s : SMState) : SMState :=
  (dueIds t s.sessionTimeouts).foldl (fun acc sid => removeTransport sid acc) s

/-- Method `getTransport` invoked at time `t` (due timers having fired
first): return the stored handle and refresh the inactivity timer when the
session exists, `undefined` otherwise. -/
def getTransport (t : Nat) (sessionId : String) (s : SMState) :
    Option TransportHandle × SMState :=
  let s1 := fireDue t s
  match alookup s1.sessions sessionId with
  | some transport => (some transport, refreshSessionTimeout t sessionId s1)
  | none => (none, s1)

/-- Method `addTransport` invoked at time `t` (due timers having fired
first): store the handle and refresh the inactivity timer. -/
def addTransport (t : Nat) (sessionId : String) (transport : TransportHandle)
    (s : SMState) : SMState :=
  let s1 := fireDue t s
  refreshSessionTimeout t sessionId { s1 with sessions := aSet sessionId transport s1.sessions }

/-- Method `getActiveSessions`: number of stored sessions. -/
def getActiveSessions (s : SMState) : Nat :=
  s.sessions.length

/-- Method `clearAllSessions`: cancel every timer and reset both maps. -/
def clearAllSessions (s : SMState) : SMState :=
  { s with sessions := [], sessionTimeouts := [] }

/-- One observable event on a `SessionManager`: a public method call at
time `t`, or plain passage of time letting due timers fire. -/
inductive SMOp where
  | add (t : Nat) (sessionId : String) (transport : TransportHandle)
  | get (t : Nat) (sessionId : String)
  | remove (t : Nat) (sessionId : String)
  | clear (t : Nat)
  | tick (t : Nat)
deriving DecidableEq, Repr

/-- Step function: due timers fire before each event is processed. -/
def smStep (s : SMState) (op : SMOp) : SMState :=
  match op with
  | SMOp.add t sid transport => addTransport t sid transport s
  | SMOp.get t sid => (getTransport t sid s).2
  | SMOp.remove t sid => removeTransport sid (fireDue t s)
  | SMOp.clear t => clearAllSessions (fireDue t s)
  | SMOp.tick t => fireDue t s

/-- Run a sequence of events from a state. -/
def smRun (ops : List SMOp) (s : SMState) : SMState :=
  ops.foldl smStep s

/-- A freshly constructed `SessionManager` (empty maps). -/
def smInit (sessionTimeout : Nat) : SMState :=
  ⟨[], [], sessionTimeout⟩

/-- Coupling invariant of claim C10: the timers map and the sessions map
have exactly the same keys. -/
def sameKeys (s : SMState) : Prop :=
  ∀ k : String, (alookup s.sessions k).isSome ↔ (alookup s.sessionTimeouts k).isSome

/- ===================== Auxiliary predicates and witness data ========== -/

/-- The protocol key resolves to a truthy URL in `PROTOCOL_TOKENLIST_URLS`
(the condition under which `getTokensByProtocol` proceeds to fetch). -/
def supportedProtocol (key : String) : Bool :=
  match alookup PROTOCOL_TOKENLIST_URLS key with
  | some u => decide (u ≠ "")
  | none => false

/-- The token cache holds no fresh entry under `key` at time `now`: either
no entry, or only a stale one. -/
def cacheExpired (cache : ProtocolTokenCache) (key : String) (now : Nat) : Prop :=
  ∀ cd, alookup cache key = some cd → ¬(now - cd.timestamp < CACHE_EXPIRATION_MS)

/-- The chain-selector argument resolves (without throwing) to the given
normalized target: absent or falsy selectors resolve to `none`, anything
else must normalize successfully. -/
def resolvedChain (chainId targetChainId : Option String) : Prop :=
  (chainId = none ∧ targetChainId = none)
  ∨ (∃ cid target, chainId = some cid ∧ cid ≠ ""
      ∧ normalizeChainId cid = Except.ok target ∧ targetChainId = some target)

/-- Concrete repository document used to instantiate the cache claims. -/
def sampleRepository : Repository :=
  ⟨"2024-01-01", "1.0.0", [], [], [], []⟩

/-- Valid token entry (witness data). -/
def rawTokenA : RawToken :=
  ⟨some "0xAb5801a7D398351b8bE11C439e05C5B3259aeC9B", some "AAA", some "Token A",
   some 18, some 43114, none, none⟩

/-- Malformed token entry: missing address (witness data). -/
def rawTokenB : RawToken :=
  ⟨none, some "BBB", some "Token B", some 18, some 43114, none, none⟩

/-- Valid native token entry (witness data). -/
def rawTokenC : RawToken :=
  ⟨some "0x0000000000000000000000000000000000000000", some "AVAX", some "Avalanche",
   some 18, some 43114, some "https://example.com/avax.png", some ["native"]⟩

/-- Malformed token entry: missing address (witness data). -/
def rawTokenD : RawToken :=
  ⟨none, some "DDD", some "Token D", some 6, some 43113, none, none⟩

/-- Valid token entry on another chain (witness data). -/
def rawTokenE : RawToken :=
  ⟨some "0xdAC17F958D2ee523a2206206994597C13D831ec7", some "EEE", some "Token E",
   some 6, some 43113, none, none⟩

/-- The 5-entry token list of the claim: two entries lack `address`. -/
def rawList5 : List RawToken :=
  [rawTokenA, rawTokenB, rawTokenC, rawTokenD, rawTokenE]

/-- The canonical record produced for `rawTokenC` (witness data). -/
def tokenC : TokenInfo :=
  ⟨"Avalanche", "AVAX", "0x0000000000000000000000000000000000000000", 18,
   "43114", "https://example.com/avax.png", ["native"], true⟩

/-- Token entry whose address is the zero address written with an
upper-case X (counterexample data). -/
def mixedCaseZeroToken : RawToken :=
  ⟨some "0X0000000000000000000000000000000000000000", some "NAT", some "Native",
   some 18, some 43114, none, none⟩

/- ===================== Association-list lemmas ======================== -/

theorem alookup_aSet {α : Type} (k q : String) (v : α) (l : List (String × α)) :
    alookup (aSet k v l) q = if k = q then some v else alookup l q := by
  induction l with
  | nil =>
    simp only [aSet, alookup]
  | cons p rest ih =>
    obtain ⟨a, b⟩ := p
    by_cases hak : a = k
    · subst hak
      by_cases haq : a = q <;> simp [aSet, alookup, haq]
    · simp only [aSet, if_neg hak, alookup, ih]
      by_cases haq : a = q
      · subst haq
        have hkq : ¬(k = a) := fun h => hak h.symm
        simp [hkq]
      · simp [haq]

theorem aDel_cons {α : Type} (k a : String) (b : α) (rest : List (String × α)) :
    aDel k ((a, b) :: rest)
      = if a = k then aDel k rest else (a, b) :: aDel k rest := by
  by_cases hak : a = k <;> simp [aDel, List.filter_cons, hak]

theorem alookup_aDel {α : Type} (k q : String) (l : List (String × α)) :
    alookup (aDel k l) q = if k = q then none else alookup l q := by
  induction l with
  | nil => simp [aDel, alookup]
  | cons p rest ih =>
    obtain ⟨a, b⟩ := p
    rw [aDel_cons]
    by_cases hak : a = k
    · rw [if_pos hak, ih]
      subst hak
      by_cases haq : a = q
      · simp [alookup, haq]
      · simp [alookup, haq]
    · rw [if_neg hak]
      simp only [alookup, ih]
      by_cases haq : a = q
      · subst haq
        have hkq : ¬(k = a) := fun h => hak h.symm
        simp [hkq]
      · simp [haq]

theorem alookup_mem {α : Type} {k : String} {v : α} {l : List (String × α)}
    (h : alookup l k = some v) : (k, v) ∈ l := by
  induction l with
  | nil => simp [alookup] at h
  | cons p rest ih =>
    obtain ⟨a, b⟩ := p
    simp only [alookup] at h
    by_cases hak : a = k
    · subst hak
      simp only [if_pos rfl] at h
      cases h
      exact List.mem_cons_self _ _
    · simp only [if_neg hak] at h
      exact List.mem_cons_of_mem _ (ih h)

theorem aDel_eq_self_of_not_mem {α : Type} (k : String) (l : List (String × α))
    (h : alookup l k = none) : aDel k l = l := by
  induction l with
  | nil => rfl
  | cons p rest ih =>
    obtain ⟨a, b⟩ := p
    simp only [alookup] at h
    by_cases hak : a = k
    · simp [if_pos hak] at h
    · simp only [if_neg hak] at h
      simp [aDel] at ih ⊢
      exact ⟨hak, ih h⟩

theorem length_aDel_of_mem {α : Type} (k : String) (l : List (String × α))
    (hnodup : (l.map Prod.fst).Nodup) (h : (alookup l k).isSome) :
    (aDel k l).length + 1 = l.length := by
  induction l with
  | nil => simp [alookup] at h
  | cons p rest ih =>
    obtain ⟨a, b⟩ := p
    simp only [List.map_cons, List.nodup_cons] at hnodup
    obtain ⟨hnotin, hnodup2⟩ := hnodup
    by_cases hak : a = k
    · subst hak
      have hnone : alookup rest a = none := by
        by_contra hcon
        obtain ⟨v, hv⟩ := Option.ne_none_iff_exists'.mp hcon
        exact hnotin (by simpa using List.mem_map_of_mem Prod.fst (alookup_mem hv))
      rw [aDel_cons, if_pos rfl, aDel_eq_self_of_not_mem a rest hnone, List.length_cons]
    · simp only [alookup, if_neg hak] at h
      have hlen := ih hnodup2 h
      rw [aDel_cons, if_neg hak, List.length_cons, List.length_cons]
      omega

/- ===================== Session-manager lemmas ========================= -/

theorem removeTransport_sessions_lookup (x sid : String) (s : SMState) :
    alookup (removeTransport x s).sessions sid
      = if x = sid then none else alookup s.sessions sid := by
  unfold removeTransport
  by_cases hx : (alookup s.sessions x).isSome
  · simp only [if_pos hx, alookup_aDel]
  · simp only [if_neg hx]
    by_cases hxs : x = sid
    · subst hxs
      simpa using Option.not_isSome_iff_eq_none.mp hx
    · simp [hxs]

theorem removeTransport_timeouts_lookup (x sid : String) (s : SMState)
    (hx : x ≠ sid) :
    alookup (removeTransport x s).sessionTimeouts sid
      = alookup s.sessionTimeouts sid := by
  unfold removeTransport
  by_cases hs : (alookup s.sessions x).isSome
  · by_cases ht : (alookup s.sessionTimeouts x).isSome
    · simp [hs, ht, alookup_aDel, hx]
    · simp [hs, ht]
  · simp [hs]

theorem removeTransport_timeout_value (x : String) (s : SMState) :
    (removeTransport x s).sessionTimeout = s.sessionTimeout := by
  unfold removeTransport
  by_cases hs : (alookup s.sessions x).isSome <;> simp [hs]

theorem fireDue_core_sessions_none (ids : List String) (sid : String) (s : SMState)
    (h : alookup s.sessions sid = none) :
    alookup (ids.foldl (fun acc i => removeTransport i acc) s).sessions sid = none := by
  induction ids generalizing s with
  | nil => simpa using h
  | cons i rest ih =>
    simp only [List.foldl_cons]
    apply ih
    rw [removeTransport_sessions_lookup]
    by_cases hi : i = sid <;> simp [hi, h]

theorem fireDue_core_sessions_mem (ids : List String) (sid : String) (s : SMState)
    (h : sid ∈ ids) :
    alookup (ids.foldl (fun acc i => removeTransport i acc) s).sessions sid = none := by
  induction ids generalizing s with
  | nil => cases h
  | cons i rest ih =>
    simp only [List.foldl_cons]
    by_cases hi : i = sid
    · subst hi
      apply fireDue_core_sessions_none
      simp [removeTransport_sessions_lookup]
    · rcases List.mem_cons.mp h with hh | hh
      · exact absurd hh.symm hi
      · exact ih _ hh

theorem fireDue_core_sessions_not_mem (ids : List String) (sid : String) (s : SMState)
    (h : sid ∉ ids) :
    alookup (ids.foldl (fun acc i => removeTransport i acc) s).sessions sid
      = alookup s.sessions sid := by
  induction ids generalizing s with
  | nil => rfl
  | cons i rest ih =>
    simp only [List.foldl_cons]
    have hi : i ≠ sid := fun hc => h (by simp [hc])
    have hrest : sid ∉ rest := fun hc => h (by simp [hc])
    rw [ih _ hrest, removeTransport_sessions_lookup]
    simp [hi]

theorem fireDue_core_timeout_value (ids : List String) (s : SMState) :
    (ids.foldl (fun acc i => removeTransport i acc) s).sessionTimeout
      = s.sessionTimeout := by
  induction ids generalizing s with
  | nil => rfl
  | cons i rest ih =>
    simp only [List.foldl_cons]
    rw [ih, removeTransport_timeout_value]

theorem fireDue_timeout_value (t : Nat) (s : SMState) :
    (fireDue t s).sessionTimeout = s.sessionTimeout :=
  fireDue_core_timeout_value _ s

theorem stringDataAppend (s t : String) : (s ++ t).data = s.data ++ t.data := by
  cases s; cases t; rfl

theorem append_ne_append_of_head_ne (a b : String) (c d : Char)
    (arest brest : List Char) (ha : a.data = c :: arest) (hb : b.data = d :: brest)
    (hcd : c ≠ d) (s t : String) : a ++ s ≠ b ++ t := by
  intro h
  have hd := congrArg String.data h
  rw [stringDataAppend, stringDataAppend, ha, hb] at hd
  simp only [List.cons_append, List.cons.injEq] at hd
  exact hcd hd.1

theorem alookup_eq_of_mem_nodup {α : Type} {k : String} {v w : α}
    {l : List (String × α)} (hnodup : (l.map Prod.fst).Nodup)
    (hmem : (k, w) ∈ l) (h : alookup l k = some v) : w = v := by
  induction l with
  | nil => cases hmem
  | cons p rest ih =>
    obtain ⟨a, b⟩ := p
    simp only [List.map_cons, List.nodup_cons] at hnodup
    rcases List.mem_cons.mp hmem with he | hm
    · rw [Prod.mk.injEq] at he
      obtain ⟨hak, hbw⟩ := he
      subst hak
      simp only [alookup, if_pos rfl] at h
      cases h
      exact hbw
    · by_cases hak : a = k
      · subst hak
        exact absurd (by simpa using List.mem_map_of_mem Prod.fst hm) hnodup.1
      · simp only [alookup, if_neg hak] at h
        exact ih hnodup.2 hm h

theorem removeTransport_sameKeys (x : String) (s : SMState) (h : sameKeys s) :
    sameKeys (removeTransport x s) := by
  unfold removeTransport
  by_cases hs : (alookup s.sessions x).isSome
  · have ht : (alookup s.sessionTimeouts x).isSome := (h x).mp hs
    simp only [if_pos hs, if_pos ht]
    intro k
    simp only [alookup_aDel]
    by_cases hxk : x = k
    · simp [hxk]
    · simp only [if_neg hxk]
      exact h k
  · simp only [if_neg hs]
    exact h

theorem fireDue_core_sameKeys (ids : List String) (s : SMState) (h : sameKeys s) :
    sameKeys (ids.foldl (fun acc i => removeTransport i acc) s) := by
  induction ids generalizing s with
  | nil => exact h
  | cons i rest ih =>
    simp only [List.foldl_cons]
    exact ih _ (removeTransport_sameKeys i s h)

theorem fireDue_sameKeys (t : Nat) (s : SMState) (h : sameKeys s) :
    sameKeys (fireDue t s) :=
  fireDue_core_sameKeys _ s h

theorem addTransport_sameKeys (t : Nat) (sid : String) (transport : TransportHandle)
    (s : SMState) (h : sameKeys s) : sameKeys (addTransport t sid transport s) := by
  have h1 := fireDue_sameKeys t s h
  intro k
  simp only [addTransport, refreshSessionTimeout, alookup_aSet]
  by_cases hk : sid = k
  · simp [hk]
  · simp only [if_neg hk]
    exact h1 k

theorem getTransport_sameKeys (t : Nat) (sid : String) (s : SMState)
    (h : sameKeys s) : sameKeys (getTransport t sid s).2 := by
  have h1 := fireDue_sameKeys t s h
  cases hlk : alookup (fireDue t s).sessions sid with
  | none =>
    simp only [getTransport, hlk]
    exact h1
  | some transport =>
    simp only [getTransport, hlk]
    intro k
    simp only [refreshSessionTimeout, alookup_aSet]
    by_cases hk : sid = k
    · subst hk
      simp [hlk]
    · simp only [if_neg hk]
      exact h1 k

theorem smStep_sameKeys (s : SMState) (op : SMOp) (h : sameKeys s) :
    sameKeys (smStep s op) := by
  cases op with
  | add t sid transport => exact addTransport_sameKeys t sid transport s h
  | get t sid => exact getTransport_sameKeys t sid s h
  | remove t sid => exact removeTransport_sameKeys sid _ (fireDue_sameKeys t s h)
  | clear t =>
    intro k
    simp [clearAllSessions, alookup]
  | tick t => exact fireDue_sameKeys t s h

theorem smRun_sameKeys (ops : List SMOp) (s : SMState) (h : sameKeys s) :
    sameKeys (smRun ops s) := by
  induction ops generalizing s with
  | nil => exact h
  | cons op rest ih =>
    simp only [smRun, List.foldl_cons]
    exact ih _ (smStep_sameKeys s op h)

/- ===================== Token-service lemmas =========================== -/

theorem normalizeChainId_ok_ne_empty (cid target : String)
    (h : normalizeChainId cid = Except.ok target) : target ≠ "" := by
  unfold normalizeChainId at h
  by_cases hnum : isNumericString cid = true
  · rw [if_pos hnum] at h
    cases h
    intro hc
    subst hc
    exact absurd hnum (by decide)
  · rw [if_neg hnum] at h
    cases halk : alookup CHAIN_ID_MAPPING (lowerString cid) with
    | none =>
      simp only [halk] at h
      cases h
    | some v =>
      simp only [halk] at h
      by_cases hv : v = ""
      · rw [if_pos hv] at h
        cases h
      · rw [if_neg hv] at h
        cases h
        exact hv

theorem cacheExpired_of_none (cache : ProtocolTokenCache) (key : String) (now : Nat)
    (h : alookup cache key = none) : cacheExpired cache key now := by
  intro cd hcd
  rw [h] at hcd
  cases hcd

theorem getTokensByProtocol_cacheMiss (fetch : FetchOutcome)
    (cache : ProtocolTokenCache) (now : Nat) (p : String)
    (chainId targetChainId : Option String)
    (hp : ¬(p = ""))
    (hchain : resolvedChain chainId targetChainId)
    (hmiss : cacheExpired cache (getCacheKey (lowerString p) targetChainId) now) :
    getTokensByProtocol fetch cache now p chainId
      = fetchAndStore fetch cache now p (lowerString p) targetChainId
          (getCacheKey (lowerString p) targetChainId) := by
  rcases hchain with ⟨hc, ht⟩ | ⟨cid, target, hc, hcne, hnorm, ht⟩
  · subst hc
    subst ht
    simp only [getTokensByProtocol, if_neg hp]
    cases hlk : alookup cache (getCacheKey (lowerString p) none) with
    | none => rfl
    | some cd =>
      show (if now - cd.timestamp < CACHE_EXPIRATION_MS
            then ({ result := Except.ok cd.tokens, cache := cache } : TokensCallResult)
            else fetchAndStore fetch cache now p (lowerString p) none
              (getCacheKey (lowerString p) none))
          = fetchAndStore fetch cache now p (lowerString p) none
              (getCacheKey (lowerString p) none)
      rw [if_neg (hmiss cd hlk)]
  · subst hc
    subst ht
    simp only [getTokensByProtocol, if_neg hp, if_neg hcne, hnorm]
    cases hlk : alookup cache (getCacheKey (lowerString p) (some target)) with
    | none => rfl
    | some cd =>
      show (if now - cd.timestamp < CACHE_EXPIRATION_MS
            then ({ result := Except.ok cd.tokens, cache := cache } : TokensCallResult)
            else fetchAndStore fetch cache now p (lowerString p) (some target)
              (getCacheKey (lowerString p) (some target)))
          = fetchAndStore fetch cache now p (lowerString p) (some target)
              (getCacheKey (lowerString p) (some target))
      rw [if_neg (hmiss cd hlk)]

theorem fetchAndStore_url_branch (fetch : FetchOutcome)
    (cache : ProtocolTokenCache) (now : Nat) (p lcp : String)
    (targetChainId : Option String) (cacheKey u : String)
    (hlk : alookup PROTOCOL_TOKENLIST_URLS lcp = some u) (hune : ¬(u = "")) :
    fetchAndStore fetch cache now p lcp targetChainId cacheKey
      = match fetch with
        | FetchOutcome.abortTimeout =>
          ⟨Except.error (timeoutMessage p), cache⟩
        | FetchOutcome.otherFailure msg =>
          ⟨Except.error (fetchErrorMessage p targetChainId msg), cache⟩
        | FetchOutcome.httpError status statusText =>
          ⟨Except.error (fetchErrorMessage p targetChainId
            ("Error HTTP " ++ toString status ++ ": " ++ statusText)), cache⟩
        | FetchOutcome.success body =>
          let allTokens := bodyTokens body
          if allTokens.isEmpty then
            ⟨Except.error (fetchErrorMessage p targetChainId
              "Formato de lista de tokens inválido o vacío"), cache⟩
          else
            let processedTokens := allTokens.filterMap validateAndNormalizeToken
            let filteredTokens :=
              match targetChainId with
              | some t => processedTokens.filter (fun tok => tok.chainId = t)
              | none => processedTokens
            ⟨Except.ok filteredTokens, aSet cacheKey ⟨filteredTokens, now⟩ cache⟩ := by
  simp only [fetchAndStore, hlk, if_neg hune]

theorem supportedProtocol_elim (lcp : String) (hsupp : supportedProtocol lcp = true) :
    ∃ u, alookup PROTOCOL_TOKENLIST_URLS lcp = some u ∧ ¬(u = "") := by
  unfold supportedProtocol at hsupp
  cases hlk : alookup PROTOCOL_TOKENLIST_URLS lcp with
  | none =>
    rw [hlk] at hsupp
    cases hsupp
  | some u =>
    rw [hlk] at hsupp
    exact ⟨u, rfl, of_decide_eq_true hsupp⟩

/- ===================== Claim theorems ================================= -/

/-- C3: chain-id normalization. An all-digits string (the `/^\d+$/` test)
passes through unchanged; otherwise the input is looked up
case-insensitively in the static alias table and a hit returns the mapped
id; a non-numeric string absent from the table fails with a chain-unknown
error naming the input. Includes the spec's concrete examples
`normalize("43114") = "43114"`,
`normalize("avalanche") = normalize("AVAX") = "43114"` and the failure on
`"unknownchain"`. -/
theorem chain_id_normalization (s : String) :
    (isNumericString s = true → normalizeChainId s = Except.ok s)
    ∧ (isNumericString s = false →
        ∀ v, alookup CHAIN_ID_MAPPING (lowerString s) = some v → v ≠ "" →
          normalizeChainId s = Except.ok v)
    ∧ (isNumericString s = false →
        alookup CHAIN_ID_MAPPING (lowerString s) = none →
          normalizeChainId s = Except.error ("Cadena desconocida: " ++ s))
    ∧ normalizeChainId "43114" = Except.ok "43114"
    ∧ normalizeChainId "avalanche" = Except.ok "43114"
    ∧ normalizeChainId "AVAX" = Except.ok "43114"
    ∧ normalizeChainId "unknownchain"
        = Except.error ("Cadena desconocida: " ++ "unknownchain") := by
  refine ⟨?_, ?_, ?_, by decide, by decide, by decide, by decide⟩
  · intro h
    unfold normalizeChainId
    rw [if_pos h]
  · intro h v hv hvne
    unfold normalizeChainId
    rw [if_neg (by simp [h])]
    simp only [hv]
    rw [if_neg hvne]
  · intro h hnone
    unfold normalizeChainId
    rw [if_neg (by simp [h])]
    simp only [hnone]

/-- Witness for C3 at concrete inputs: the numeric clause at `"7"` and the
unknown-alias clause at `"noexiste"`, hypotheses discharged by
computation. -/
theorem chain_id_normalization_witness :
    normalizeChainId "7" = Except.ok "7"
    ∧ normalizeChainId "noexiste" = Except.error ("Cadena desconocida: " ++ "noexiste")
    ∧ normalizeChainId "AVAX" = Except.ok "43114" := by
  refine ⟨(chain_id_normalization "7").1 (by decide),
          (chain_id_normalization "noexiste").2.2.1 (by decide) (by decide),
          (chain_id_normalization "AVAX").2.2.2.2.2.1⟩

/-- C2: token validation drop policy. On a cache-miss fetch of a token-list
array, `getTokensByProtocol` returns (and caches) exactly the entries kept
by `validateAndNormalizeToken`, with no error raised; and
`validateAndNormalizeToken` keeps an entry exactly when it has `address`,
`symbol`, `name` and numeric `decimals` and `chainId`. -/
theorem token_drop_policy (raw : List RawToken) (cache : ProtocolTokenCache)
    (now : Nat) (p : String)
    (hp : ¬(p = ""))
    (hsupp : supportedProtocol (lowerString p) = true)
    (hmiss : alookup cache (getCacheKey (lowerString p) none) = none)
    (hne : raw ≠ []) :
    getTokensByProtocol (FetchOutcome.success (TokenListBody.arr raw)) cache now p none
      = ⟨Except.ok (raw.filterMap validateAndNormalizeToken),
         aSet (getCacheKey (lowerString p) none)
           ⟨raw.filterMap validateAndNormalizeToken, now⟩ cache⟩
    ∧ ∀ r : RawToken, (validateAndNormalizeToken r).isSome = hasRequiredFields r := by
  constructor
  · rw [getTokensByProtocol_cacheMiss _ _ _ _ _ none hp (Or.inl ⟨rfl, rfl⟩)
        (cacheExpired_of_none _ _ _ hmiss)]
    obtain ⟨u, hlk, hune⟩ := supportedProtocol_elim _ hsupp
    rw [fetchAndStore_url_branch _ _ _ _ _ _ _ u hlk hune]
    have hemp : raw.isEmpty = false := by
      cases raw with
      | nil => exact absurd rfl hne
      | cons a l => rfl
    simp [bodyTokens, hemp]
  · intro r
    obtain ⟨oa, os, onm, od, oc, ol, ot⟩ := r
    cases oa with
    | none => cases os <;> cases onm <;> cases od <;> cases oc <;>
        simp [validateAndNormalizeToken, hasRequiredFields]
    | some a =>
      cases os with
      | none => cases onm <;> cases od <;> cases oc <;>
          simp [validateAndNormalizeToken, hasRequiredFields]
      | some sy =>
        cases onm with
        | none => cases od <;> cases oc <;>
            simp [validateAndNormalizeToken, hasRequiredFields]
        | some nm =>
          cases od with
          | none => cases oc <;>
              simp [validateAndNormalizeToken, hasRequiredFields]
          | some d =>
            cases oc with
            | none => simp [validateAndNormalizeToken, hasRequiredFields]
            | some c =>
              by_cases ha : a = "" <;> by_cases hsy : sy = "" <;> by_cases hnm : nm = "" <;>
                simp [validateAndNormalizeToken, hasRequiredFields, ha, hsy, hnm]

/-- Witness for C2: the 5-entry list of the claim (2 entries lacking
`address`) yields exactly 3 normalized tokens, with the full call equality
instantiated at `protocol = "lfj"`, empty cache, `now = 0`; the two
malformed entries are individually dropped. -/
theorem token_drop_policy_witness :
    (getTokensByProtocol (FetchOutcome.success (TokenListBody.arr rawList5)) [] 0 "lfj" none
      = ⟨Except.ok (rawList5.filterMap validateAndNormalizeToken),
         aSet (getCacheKey (lowerString "lfj") none)
           ⟨rawList5.filterMap validateAndNormalizeToken, 0⟩ []⟩)
    ∧ (rawList5.filterMap validateAndNormalizeToken).length = 3
    ∧ validateAndNormalizeToken rawTokenB = none
    ∧ validateAndNormalizeToken rawTokenD = none := by
  refine ⟨(token_drop_policy rawList5 [] 0 "lfj" (by decide) (by decide)
    (by decide) (by decide)).1, by decide, by decide, by decide⟩

theorem timeoutMessage_ne_fetchErrorMessage (p p2 m2 : String) (t2 : Option String) :
    timeoutMessage p ≠ fetchErrorMessage p2 t2 m2 := by
  intro h
  have hd := congrArg String.data h
  simp only [timeoutMessage, fetchErrorMessage, stringDataAppend,
    List.append_assoc] at hd
  simp only [List.cons_append, List.cons.injEq] at hd
  exact absurd hd.1 (by decide)

theorem timeoutMessage_ne_unsupported (p p2 : String) :
    timeoutMessage p ≠ "Protocolo no soportado para listas de tokens: " ++ p2 := by
  intro h
  have hd := congrArg String.data h
  simp only [timeoutMessage, stringDataAppend] at hd
  simp only [List.cons_append, List.cons.injEq] at hd
  exact absurd hd.1 (by decide)

/-- C6: chain filtering and cache store on miss. A successful cache-miss
call with a chain selector returns exactly the normalized list filtered to
the normalized chain id, every returned token carries that `chainId`, and
that exact filtered list is stored under the key built from the lowercased
protocol and the normalized chain id with the current timestamp. -/
theorem chain_filter_and_store (raw : List RawToken) (cache : ProtocolTokenCache)
    (now : Nat) (p cid target : String)
    (hp : ¬(p = ""))
    (hcid : cid ≠ "")
    (hnorm : normalizeChainId cid = Except.ok target)
    (hsupp : supportedProtocol (lowerString p) = true)
    (hmiss : alookup cache (getCacheKey (lowerString p) (some target)) = none)
    (hne : raw ≠ []) :
    getTokensByProtocol (FetchOutcome.success (TokenListBody.arr raw)) cache now p (some cid)
      = ⟨Except.ok ((raw.filterMap validateAndNormalizeToken).filter
            (fun tok => tok.chainId = target)),
         aSet (getCacheKey (lowerString p) (some target))
           ⟨(raw.filterMap validateAndNormalizeToken).filter
              (fun tok => tok.chainId = target), now⟩ cache⟩
    ∧ (∀ tok ∈ (raw.filterMap validateAndNormalizeToken).filter
          (fun tok => tok.chainId = target), tok.chainId = target)
    ∧ alookup (getTokensByProtocol (FetchOutcome.success (TokenListBody.arr raw))
          cache now p (some cid)).cache (getCacheKey (lowerString p) (some target))
        = some ⟨(raw.filterMap validateAndNormalizeToken).filter
            (fun tok => tok.chainId = target), now⟩ := by
  have hmain : getTokensByProtocol (FetchOutcome.success (TokenListBody.arr raw))
      cache now p (some cid)
      = ⟨Except.ok ((raw.filterMap validateAndNormalizeToken).filter
            (fun tok => tok.chainId = target)),
         aSet (getCacheKey (lowerString p) (some target))
           ⟨(raw.filterMap validateAndNormalizeToken).filter
              (fun tok => tok.chainId = target), now⟩ cache⟩ := by
    rw [getTokensByProtocol_cacheMiss _ _ _ _ _ (some target) hp
        (Or.inr ⟨cid, target, rfl, hcid, hnorm, rfl⟩)
        (cacheExpired_of_none _ _ _ hmiss)]
    obtain ⟨u, hlk, hune⟩ := supportedProtocol_elim _ hsupp
    rw [fetchAndStore_url_branch _ _ _ _ _ _ _ u hlk hune]
    have hemp : raw.isEmpty = false := by
      cases raw with
      | nil => exact absurd rfl hne
      | cons a l => rfl
    simp [bodyTokens, hemp]
  refine ⟨hmain, ?_, ?_⟩
  · intro tok htok
    exact of_decide_eq_true (List.mem_filter.mp htok).2
  · rw [hmain]
    show alookup (aSet (getCacheKey (lowerString p) (some target)) _ cache) _ = _
    rw [alookup_aSet, if_pos rfl]

/-- Witness for C6: the 5-entry list, protocol written `"LFJ"`, selector
`"avalanche"` (normalizing to `"43114"`): the call returns the 2 valid
tokens on chain 43114 and stores them under the computed key at
`now = 5`. -/
theorem chain_filter_and_store_witness :
    getTokensByProtocol (FetchOutcome.success (TokenListBody.arr rawList5)) [] 5 "LFJ" (some "avalanche")
      = ⟨Except.ok ((rawList5.filterMap validateAndNormalizeToken).filter
            (fun tok => tok.chainId = "43114")),
         aSet (getCacheKey (lowerString "LFJ") (some "43114"))
           ⟨(rawList5.filterMap validateAndNormalizeToken).filter
              (fun tok => tok.chainId = "43114"), 5⟩ []⟩
    ∧ ((rawList5.filterMap validateAndNormalizeToken).filter
          (fun tok => tok.chainId = "43114")).length = 2 := by
  refine ⟨(chain_filter_and_store rawList5 [] 5 "LFJ" "avalanche" "43114"
    (by decide) (by decide) (by decide) (by decide) (by decide) (by decide)).1, by decide⟩

/-- C8: distinct timeout error. When the fetch is aborted by the
10-second timeout, the call fails with the dedicated timeout message
naming the protocol, and that message differs from every wrapped
fetch-failure message (and from the unsupported-protocol message). -/
theorem timeout_error_distinct (cache : ProtocolTokenCache) (now : Nat)
    (p : String) (chainId targetChainId : Option String)
    (hp : ¬(p = ""))
    (hsupp : supportedProtocol (lowerString p) = true)
    (hchain : resolvedChain chainId targetChainId)
    (hmiss : cacheExpired cache (getCacheKey (lowerString p) targetChainId) now) :
    (getTokensByProtocol FetchOutcome.abortTimeout cache now p chainId).result
      = Except.error (timeoutMessage p)
    ∧ (∀ p2 m2 : String, ∀ t2 : Option String,
        timeoutMessage p ≠ fetchErrorMessage p2 t2 m2)
    ∧ (∀ p2 : String,
        timeoutMessage p ≠ "Protocolo no soportado para listas de tokens: " ++ p2) := by
  refine ⟨?_, fun p2 m2 t2 => timeoutMessage_ne_fetchErrorMessage p p2 m2 t2,
    fun p2 => timeoutMessage_ne_unsupported p p2⟩
  rw [getTokensByProtocol_cacheMiss _ _ _ _ _ targetChainId hp hchain hmiss]
  obtain ⟨u, hlk, hune⟩ := supportedProtocol_elim _ hsupp
  rw [fetchAndStore_url_branch _ _ _ _ _ _ _ u hlk hune]

/-- Witness for C8 at `protocol = "lfj"`, no chain selector, empty cache:
the timeout error message appears verbatim and differs from a sample
wrapped HTTP-failure message. -/
theorem timeout_error_distinct_witness :
    (getTokensByProtocol FetchOutcome.abortTimeout [] 0 "lfj" none).result
      = Except.error (timeoutMessage "lfj")
    ∧ timeoutMessage "lfj" ≠ fetchErrorMessage "lfj" none "Error HTTP 500: Internal Server Error" := by
  have h := timeout_error_distinct [] 0 "lfj" none none (by decide) (by decide)
    (Or.inl ⟨rfl, rfl⟩) (cacheExpired_of_none _ _ _ (by decide))
  exact ⟨h.1, h.2.1 "lfj" "Error HTTP 500: Internal Server Error" none⟩

/-- C9 counterexample: the claim fails as stated. The entry whose address
is the zero address written with an upper-case `X` normalizes to a token
with `isNative = true` whose `address` is not the all-zero literal, because
the source compares the lowercased address. -/
theorem native_detection_counterexample :
    validateAndNormalizeToken mixedCaseZeroToken
      = some ⟨"Native", "NAT", "0X0000000000000000000000000000000000000000", 18,
              "43114", "", [], true⟩
    ∧ ("0X0000000000000000000000000000000000000000" : String) ≠ zeroAddress := by
  refine ⟨by decide, by decide⟩

/-- C9 amended: for every token produced by `validateAndNormalizeToken`,
`isNative` is true if and only if the lowercased address equals the
all-zero address literal. -/
theorem native_detection_amended (r : RawToken) (tok : TokenInfo)
    (h : validateAndNormalizeToken r = some tok) :
    tok.isNative = true ↔ lowerString tok.address = zeroAddress := by
  obtain ⟨oa, os, onm, od, oc, ol, ot⟩ := r
  cases oa <;> cases os <;> cases onm <;> cases od <;> cases oc <;>
    simp only [validateAndNormalizeToken] at h <;>
    try cases h
  split at h
  · exact Option.noConfusion h
  · rw [Option.some.injEq] at h
    subst h
    simp [decide_eq_true_iff]

/-- Witness for C9 amended, at the native entry `rawTokenC`. -/
theorem native_detection_amended_witness :
    tokenC.isNative = true ↔ lowerString tokenC.address = zeroAddress :=
  native_detection_amended rawTokenC tokenC (by decide)

/-- C4: repository cache TTL boundary. With a cached document present, a
call strictly before the stored expiry returns it unchanged with no fetch;
a call at or after the expiry issues a fetch, and a successful fetch
replaces the slot and sets the expiry to `now + CACHE_TTL` (5 minutes). -/
theorem repository_cache_ttl (s : RepoCacheState) (d : Repository)
    (f : RepoFetchOutcome) (t : Nat)
    (hc : s.repositoryCache = some d) :
    (t < s.repositoryCacheExpiry →
      getRepository f t s = ⟨Except.ok d, s, false⟩)
    ∧ (s.repositoryCacheExpiry ≤ t →
      (getRepository f t s).didFetch = true
      ∧ (∀ d2, f = RepoFetchOutcome.success d2 →
          getRepository f t s = ⟨Except.ok d2, ⟨some d2, t + CACHE_TTL⟩, true⟩)) := by
  constructor
  · intro ht
    simp only [getRepository, hc]
    rw [if_pos ht]
  · intro hle
    have hnot : ¬(t < s.repositoryCacheExpiry) := not_lt.mpr hle
    constructor
    · simp only [getRepository, hc]
      rw [if_neg hnot]
      cases f <;> rfl
    · intro d2 hf
      subst hf
      simp only [getRepository, hc]
      rw [if_neg hnot]
      rfl

/-- Witness for C4: document fetched at `t0 = 1000` (expiry 301000); a call
at `300999` is served from the cache with no fetch, a call at `301001`
fetches and resets the slot. -/
theorem repository_cache_ttl_witness :
    getRepository (RepoFetchOutcome.success sampleRepository) 300999
        ⟨some sampleRepository, 301000⟩
      = ⟨Except.ok sampleRepository, ⟨some sampleRepository, 301000⟩, false⟩
    ∧ (getRepository (RepoFetchOutcome.success sampleRepository) 301001
        ⟨some sampleRepository, 301000⟩).didFetch = true
    ∧ getRepository (RepoFetchOutcome.success sampleRepository) 301001
        ⟨some sampleRepository, 301000⟩
      = ⟨Except.ok sampleRepository, ⟨some sampleRepository, 301001 + CACHE_TTL⟩, true⟩ := by
  have h1 := repository_cache_ttl ⟨some sampleRepository, 301000⟩ sampleRepository
    (RepoFetchOutcome.success sampleRepository) 300999 rfl
  have h2 := repository_cache_ttl ⟨some sampleRepository, 301000⟩ sampleRepository
    (RepoFetchOutcome.success sampleRepository) 301001 rfl
  exact ⟨h1.1 (by decide), (h2.2 (by decide)).1, (h2.2 (by decide)).2 sampleRepository rfl⟩

/-- C5: repository fetch failure semantics. When the cache is empty or
expired, a failed fetch (non-2xx or other rejection) raises an error
wrapping the underlying message, the slot is left unchanged, and no
previously cached document is returned: an ok result can only come from a
successful fetch of that very document. -/
theorem repository_fetch_failure (s : RepoCacheState) (t : Nat)
    (hmiss : s.repositoryCache = none ∨ s.repositoryCacheExpiry ≤ t) :
    (∀ statusText, getRepository (RepoFetchOutcome.httpError statusText) t s
      = ⟨Except.error ("Failed to fetch repository data: "
          ++ ("Failed to fetch repository: " ++ statusText)), s, true⟩)
    ∧ (∀ msg, getRepository (RepoFetchOutcome.otherFailure msg) t s
      = ⟨Except.error ("Failed to fetch repository data: " ++ msg), s, true⟩)
    ∧ (∀ f d, (getRepository f t s).result = Except.ok d →
        f = RepoFetchOutcome.success d) := by
  have hstep : ∀ f : RepoFetchOutcome, getRepository f t s
      = getRepository.getRepositoryFetchPath f t s := by
    intro f
    cases hcache : s.repositoryCache with
    | none => simp only [getRepository, hcache]
    | some c =>
      rcases hmiss with hnone | hle
      · rw [hcache] at hnone
        cases hnone
      · simp only [getRepository, hcache]
        rw [if_neg (not_lt.mpr hle)]
  refine ⟨?_, ?_, ?_⟩
  · intro st
    rw [hstep]
    rfl
  · intro m
    rw [hstep]
    rfl
  · intro f d hok
    rw [hstep] at hok
    cases f with
    | success d2 =>
      simp only [getRepository.getRepositoryFetchPath] at hok
      cases hok
      rfl
    | httpError st => simp [getRepository.getRepositoryFetchPath] at hok
    | otherFailure m => simp [getRepository.getRepositoryFetchPath] at hok

/-- Witness for C5: empty cache at `t = 5`, a rejected fetch with message
`network down` produces the wrapped error and leaves the slot unchanged. -/
theorem repository_fetch_failure_witness :
    getRepository (RepoFetchOutcome.otherFailure "network down") 5 ⟨none, 0⟩
      = ⟨Except.error ("Failed to fetch repository data: " ++ "network down"),
         ⟨none, 0⟩, true⟩ :=
  (repository_fetch_failure ⟨none, 0⟩ 5 (Or.inl rfl)).2.1 "network down"

/-- C7: idempotent session removal. `removeTransport` twice equals
`removeTransport` once (it is a total function, so it never throws); if the
id was present the first removal decreases `getActiveSessions` by exactly
one and the second leaves it unchanged; removing an absent id leaves the
state untouched. -/
theorem remove_idempotent (s : SMState) (sid : String)
    (hnodup : (s.sessions.map Prod.fst).Nodup) :
    removeTransport sid (removeTransport sid s) = removeTransport sid s
    ∧ ((alookup s.sessions sid).isSome →
        getActiveSessions (removeTransport sid s) + 1 = getActiveSessions s)
    ∧ (alookup s.sessions sid = none → removeTransport sid s = s)
    ∧ getActiveSessions (removeTransport sid (removeTransport sid s))
        = getActiveSessions (removeTransport sid s) := by
  have habsent : ∀ s2 : SMState, alookup s2.sessions sid = none →
      removeTransport sid s2 = s2 := by
    intro s2 h2
    simp [removeTransport, h2]
  have hidem : removeTransport sid (removeTransport sid s) = removeTransport sid s := by
    apply habsent
    rw [removeTransport_sessions_lookup, if_pos rfl]
  refine ⟨hidem, ?_, habsent s, by rw [hidem]⟩
  intro hsome
  simp only [removeTransport, if_pos hsome, getActiveSessions]
  exact length_aDel_of_mem sid s.sessions hnodup hsome

/-- Witness for C7 on a 2-session state: removing `"a"` drops the count
from 2 to 1 and a second removal is the identity. -/
theorem remove_idempotent_witness :
    removeTransport "a" (removeTransport "a"
        ⟨[("a", 1), ("b", 2)], [("a", 10), ("b", 20)], 30⟩)
      = removeTransport "a" ⟨[("a", 1), ("b", 2)], [("a", 10), ("b", 20)], 30⟩
    ∧ getActiveSessions (removeTransport "a"
        ⟨[("a", 1), ("b", 2)], [("a", 10), ("b", 20)], 30⟩) + 1
      = getActiveSessions ⟨[("a", 1), ("b", 2)], [("a", 10), ("b", 20)], 30⟩ := by
  have h := remove_idempotent ⟨[("a", 1), ("b", 2)], [("a", 10), ("b", 20)], 30⟩ "a"
    (by decide)
  exact ⟨h.1, h.2.1 (by decide)⟩

/-- C1: session registry sliding expiry. For a stored session whose pending
timer fires at `la + sessionTimeout` (`la` the last access), a lookup at
`t` before that deadline returns the stored handle and reschedules the
timer to `t + sessionTimeout`; a lookup at or after the deadline, with no
intervening access, finds the session already evicted and returns none. -/
theorem sliding_expiry (s : SMState) (sid : String) (tr : TransportHandle)
    (la t : Nat)
    (hnodup : (s.sessionTimeouts.map Prod.fst).Nodup)
    (hsess : alookup s.sessions sid = some tr)
    (htimer : alookup s.sessionTimeouts sid = some (la + s.sessionTimeout)) :
    (t < la + s.sessionTimeout →
      (getTransport t sid s).1 = some tr
      ∧ alookup (getTransport t sid s).2.sessionTimeouts sid
          = some (t + s.sessionTimeout))
    ∧ (la + s.sessionTimeout ≤ t → (getTransport t sid s).1 = none) := by
  constructor
  · intro hlt
    have hnotdue : sid ∉ dueIds t s.sessionTimeouts := by
      intro hmem
      unfold dueIds at hmem
      obtain ⟨q, hq, hfst⟩ := List.mem_map.mp hmem
      obtain ⟨k1, dl⟩ := q
      obtain ⟨hqmem, hqle⟩ := List.mem_filter.mp hq
      simp only at hfst hqle
      subst hfst
      have hdl : dl = la + s.sessionTimeout :=
        alookup_eq_of_mem_nodup hnodup hqmem htimer
      have hqle2 : dl ≤ t := of_decide_eq_true hqle
      omega
    have hsess2 : alookup (fireDue t s).sessions sid = some tr := by
      unfold fireDue
      rw [fireDue_core_sessions_not_mem _ _ _ hnotdue, hsess]
    constructor
    · simp only [getTransport, hsess2]
    · simp only [getTransport, hsess2, refreshSessionTimeout]
      rw [alookup_aSet, if_pos rfl, fireDue_timeout_value]
  · intro hge
    have hdue : sid ∈ dueIds t s.sessionTimeouts := by
      unfold dueIds
      refine List.mem_map.mpr ⟨(sid, la + s.sessionTimeout), ?_, rfl⟩
      exact List.mem_filter.mpr ⟨alookup_mem htimer, decide_eq_true hge⟩
    have hnone : alookup (fireDue t s).sessions sid = none := by
      unfold fireDue
      exact fireDue_core_sessions_mem _ _ _ hdue
    simp only [getTransport, hnone]

/-- Witness for C1: session `"a"` with handle 7, last accessed at 100,
timeout 30 (deadline 130): a lookup at 120 returns the handle and moves the
deadline to 150; a lookup at 200 returns none. -/
theorem sliding_expiry_witness :
    ((getTransport 120 "a" ⟨[("a", 7)], [("a", 130)], 30⟩).1 = some 7
      ∧ alookup (getTransport 120 "a" ⟨[("a", 7)], [("a", 130)], 30⟩).2.sessionTimeouts "a"
          = some 150)
    ∧ (getTransport 200 "a" ⟨[("a", 7)], [("a", 130)], 30⟩).1 = none := by
  have h1 := sliding_expiry ⟨[("a", 7)], [("a", 130)], 30⟩ "a" 7 100 120
    (by decide) (by decide) (by decide)
  have h2 := sliding_expiry ⟨[("a", 7)], [("a", 130)], 30⟩ "a" 7 100 200
    (by decide) (by decide) (by decide)
  exact ⟨h1.1 (by decide), h2.2 (by decide)⟩

/-- C10: no dangling timers. After any sequence of session-manager events
(adds, lookups, removals, clears and timer firings) starting from a fresh
manager, the pending-timeout map and the session map have exactly the same
keys. -/
theorem no_dangling_timer (sessionTimeout : Nat) (ops : List SMOp) :
    sameKeys (smRun ops (smInit sessionTimeout)) := by
  apply smRun_sameKeys
  intro k
  simp [smInit, alookup]
